import Mathlib

/-!
Verification of the arrow-grid canvas animation (`src/app/page.tsx`).

The source renders a grid of arrows; each frame every arrow's `currentAngle`
is driven toward the direction of the mouse pointer by a smoothing factor,
and its opacity is computed from its distance to the pointer.  This file
gives a shallow embedding of the grid builder (`setCanvasAndGrid`), the
per-cell frame step of the animation loop (`animate`), and the opacity
computation, and proves the stated properties about them.

Real-valued quantities of the program (angles, opacities) are modelled by
`ℝ`; the grid coordinates, which are rational combinations of the integer
viewport size, are modelled by `ℚ` so that the grid builder is executable.
`Math.atan2 y x` is modelled by `Complex.arg ⟨x, y⟩`, which is given by the
same piecewise arctangent formula (range `(-π, π]`, `atan2 0 0 = 0`).
-/

open Real Set

namespace CanvasRoot

/-- `const ARROW_SPACING = 50` (distance between arrow centers). -/
def ARROW_SPACING : ℕ := 50

noncomputable section

/-- `const FADE_START_DISTANCE = 100`. -/
def FADE_START_DISTANCE : ℝ := 100

/-- `const FADE_END_DISTANCE = 200`. -/
def FADE_END_DISTANCE : ℝ := 200

/-- `const MIN_OPACITY = 0.01`. -/
def MIN_OPACITY : ℝ := 0.01

/-- `const MAX_OPACITY = 1.0`. -/
def MAX_OPACITY : ℝ := 1.0

/-- `const SMOOTHING_FACTOR = 0.05`. -/
def SMOOTHING_FACTOR : ℝ := 0.05

end

/-- The pointer target `targetMousePos.current = { x, y }`. -/
structure Pointer where
  x : ℝ
  y : ℝ

/-- A grid cell `{ x, y, currentAngle }`.  Parametrised by the number type
so the (executable) grid builder can use `ℚ` while the frame step uses `ℝ`. -/
structure GridCell (α : Type) where
  x : α
  y : α
  currentAngle : α
deriving DecidableEq

noncomputable section

/-- `Math.atan2 y x`, modelled by `Complex.arg ⟨x, y⟩`: both are the
piecewise arctangent with range `(-π, π]` and value `0` at `(0, 0)`. -/
def atan2 (y x : ℝ) : ℝ := Complex.arg ⟨x, y⟩

/-- `const targetAngle = Math.atan2(dy, dx)` with
`dx = targetMousePos.current.x - arrow.x`, `dy = targetMousePos.current.y - arrow.y`. -/
def targetAngle (p : Pointer) (c : GridCell ℝ) : ℝ :=
  atan2 (p.y - c.y) (p.x - c.x)

/-- First wrap statement: `if (v > Math.PI) v -= 2 * Math.PI`. -/
def wrapHigh (a : ℝ) : ℝ := if a > π then a - 2 * π else a

/-- The two sequential wrap statements of the source (applied both to
`angleDiff` and to the updated `currentAngle`):
`if (v > PI) v -= 2*PI; if (v < -PI) v += 2*PI`. -/
def wrap (a : ℝ) : ℝ := if wrapHigh a < -π then wrapHigh a + 2 * π else wrapHigh a

/-- `let angleDiff = targetAngle - arrow.currentAngle` followed by the
normalization ifs. -/
def angleDiff (p : Pointer) (c : GridCell ℝ) : ℝ :=
  wrap (targetAngle p c - c.currentAngle)

/-- `arrow.currentAngle += angleDiff * SMOOTHING_FACTOR` followed by the
re-normalization ifs; the smoothing factor `k` is kept as a parameter. -/
def stepAngle (k : ℝ) (p : Pointer) (c : GridCell ℝ) : ℝ :=
  wrap (c.currentAngle + angleDiff p c * k)

/-- The effect of one pass of the `forEach` body on one cell: only
`currentAngle` is updated. -/
def frameStepCell (k : ℝ) (p : Pointer) (c : GridCell ℝ) : GridCell ℝ :=
  { x := c.x, y := c.y, currentAngle := stepAngle k p c }

/-- `n` frames of the animation loop applied to one cell, the pointer held fixed. -/
def stepIter (k : ℝ) (p : Pointer) (c : GridCell ℝ) : ℕ → GridCell ℝ
  | 0 => c
  | n + 1 => frameStepCell k p (stepIter k p c n)

/-- `const distance = Math.hypot(dx, dy)`. -/
def distanceTo (p : Pointer) (c : GridCell ℝ) : ℝ :=
  Real.sqrt ((p.x - c.x) ^ 2 + (p.y - c.y) ^ 2)

/-- The opacity computation of the frame step:
`let opacity = MAX_OPACITY; if (distance > FADE_START_DISTANCE) { const
fadeProgress = Math.min(1, (distance - FADE_START_DISTANCE) /
(FADE_END_DISTANCE - FADE_START_DISTANCE)); opacity = MAX_OPACITY -
(MAX_OPACITY - MIN_OPACITY) * fadeProgress }; opacity =
Math.max(MIN_OPACITY, Math.min(MAX_OPACITY, opacity))`. -/
def opacity (distance : ℝ) : ℝ :=
  max MIN_OPACITY (min MAX_OPACITY
    (if distance > FADE_START_DISTANCE then
      MAX_OPACITY - (MAX_OPACITY - MIN_OPACITY) *
        min 1 ((distance - FADE_START_DISTANCE) / (FADE_END_DISTANCE - FADE_START_DISTANCE))
    else MAX_OPACITY))

/-- The spec's reference opacity function (for the refinement claim C4):
`MAX_OPACITY` for `d ≤ FADE_START`, `MIN_OPACITY` for `d ≥ FADE_END`,
linear interpolation in between, result clamped to
`[MIN_OPACITY, MAX_OPACITY]`. -/
def opacityRef (d : ℝ) : ℝ :=
  max MIN_OPACITY (min MAX_OPACITY
    (if d ≤ FADE_START_DISTANCE then MAX_OPACITY
     else if FADE_END_DISTANCE ≤ d then MIN_OPACITY
     else MAX_OPACITY - (MAX_OPACITY - MIN_OPACITY) *
        ((d - FADE_START_DISTANCE) / (FADE_END_DISTANCE - FADE_START_DISTANCE))))

/-- The mutable state the animation loop works on: the pointer target ref
and the cell array ref. -/
structure AnimState where
  targetMousePos : Pointer
  arrowGridPositions : List (GridCell ℝ)

/-- One frame of `animate`: every cell's `currentAngle` is advanced toward
the pointer; positions and the pointer target are not written. -/
def animate (k : ℝ) (s : AnimState) : AnimState :=
  { targetMousePos := s.targetMousePos
    arrowGridPositions := s.arrowGridPositions.map (frameStepCell k s.targetMousePos) }

end

/-- `handleMouseMove`: writes the pointer target, leaves the cells alone. -/
def handleMouseMove (q : Pointer) (s : AnimState) : AnimState :=
  { targetMousePos := q, arrowGridPositions := s.arrowGridPositions }

/-- One axis loop of the grid builder:
`for (let x = start; x < limit; x += ARROW_SPACING) push x`. -/
def gridLoop (limit x : ℚ) : List ℚ :=
  if _h : x < limit then x :: gridLoop limit (x + (ARROW_SPACING : ℚ)) else []
termination_by (⌈limit - x⌉).toNat
decreasing_by
  have h50 : (ARROW_SPACING : ℚ) = 50 := by norm_num [ARROW_SPACING]
  have hle : limit - (x + (ARROW_SPACING : ℚ)) = (limit - x) - (50 : ℤ) := by
    rw [h50]; push_cast; ring
  rw [hle, Int.ceil_sub_int]
  have hpos : 0 < ⌈limit - x⌉ := Int.ceil_pos.mpr (by linarith)
  omega

/-- The column positions: start `ARROW_SPACING / 2 + offsetX` with
`offsetX = (canvas.width % ARROW_SPACING) / 2`, bound `canvas.width`. -/
def gridXs (W : ℕ) : List ℚ :=
  gridLoop W ((ARROW_SPACING : ℚ) / 2 + ((W % ARROW_SPACING : ℕ) : ℚ) / 2)

/-- The row positions (same with the height). -/
def gridYs (H : ℕ) : List ℚ :=
  gridLoop H ((ARROW_SPACING : ℚ) / 2 + ((H % ARROW_SPACING : ℕ) : ℚ) / 2)

/-- `setCanvasAndGrid`: rows outer, columns inner, each produced cell gets
`currentAngle = 0`. -/
def setCanvasAndGrid (W H : ℕ) : List (GridCell ℚ) :=
  (gridYs H).flatMap fun y => (gridXs W).map fun x => ⟨x, y, 0⟩

/-! ### Properties of the wrap normalization -/

/-- `wrap` only ever shifts its argument by `0` or `±2π`. -/
lemma wrap_cases (a : ℝ) : wrap a = a ∨ wrap a = a - 2 * π ∨ wrap a = a + 2 * π := by
  unfold wrap wrapHigh
  split_ifs <;>
    first
      | (left; ring1)
      | (right; left; ring1)
      | (right; right; ring1)

/-- On `(-2π, 2π]` the single-pass wrap lands in `[-π, π]`. -/
lemma wrap_bounds {v : ℝ} (h1 : -(2 * π) < v) (h2 : v ≤ 2 * π) :
    -π ≤ wrap v ∧ wrap v ≤ π := by
  have hπ := Real.pi_pos
  unfold wrap wrapHigh
  split_ifs <;> constructor <;> linarith

/-- `wrap` fixes every value already in `[-π, π]`; in particular `-π` is
left unchanged (it is neither `> π` nor `< -π`). -/
lemma wrap_eq_self {a : ℝ} (h1 : -π ≤ a) (h2 : a ≤ π) : wrap a = a := by
  have hπ := Real.pi_pos
  unfold wrap wrapHigh
  split_ifs <;> linarith

lemma wrap_zero : wrap 0 = 0 :=
  wrap_eq_self (by linarith [Real.pi_pos]) (le_of_lt Real.pi_pos)

/-- Bounds on the angle difference after normalization. -/
lemma wrap_diff_bounds {θ a : ℝ} (hθ1 : -π < θ) (hθ2 : θ ≤ π)
    (ha1 : -π ≤ a) (ha2 : a ≤ π) :
    -π ≤ wrap (θ - a) ∧ wrap (θ - a) ≤ π :=
  wrap_bounds (by linarith) (by linarith)

/-- The scaled normalized difference lies strictly inside `(-π, π)` for a
smoothing factor in `(0, 1)`. -/
lemma wrap_diff_mul_bounds {θ a k : ℝ} (hθ1 : -π < θ) (hθ2 : θ ≤ π)
    (ha1 : -π ≤ a) (ha2 : a ≤ π) (hk0 : 0 < k) (hk1 : k < 1) :
    -π < wrap (θ - a) * k ∧ wrap (θ - a) * k < π := by
  have hπ := Real.pi_pos
  obtain ⟨hδ1, hδ2⟩ := wrap_diff_bounds hθ1 hθ2 ha1 ha2
  constructor
  · nlinarith [mul_nonneg (by linarith : (0:ℝ) ≤ wrap (θ - a) + π) hk0.le,
      mul_pos hπ (by linarith : (0:ℝ) < 1 - k)]
  · nlinarith [mul_nonneg (by linarith : (0:ℝ) ≤ π - wrap (θ - a)) hk0.le,
      mul_pos hπ (by linarith : (0:ℝ) < 1 - k)]

/-- One angle update stays in `[-π, π]`. -/
lemma step_formula_bounds {θ a k : ℝ} (hθ1 : -π < θ) (hθ2 : θ ≤ π)
    (ha1 : -π ≤ a) (ha2 : a ≤ π) (hk0 : 0 < k) (hk1 : k < 1) :
    -π ≤ wrap (a + wrap (θ - a) * k) ∧ wrap (a + wrap (θ - a) * k) ≤ π := by
  obtain ⟨h1, h2⟩ := wrap_diff_mul_bounds hθ1 hθ2 ha1 ha2 hk0 hk1
  exact wrap_bounds (by linarith) (by linarith)

/-- Key contraction identity: one update scales the normalized angle
difference by exactly `1 - k`. -/
lemma step_contract {θ a k : ℝ} (hθ1 : -π < θ) (hθ2 : θ ≤ π)
    (ha1 : -π ≤ a) (ha2 : a ≤ π) (hk0 : 0 < k) (hk1 : k < 1) :
    wrap (θ - wrap (a + wrap (θ - a) * k)) = (1 - k) * wrap (θ - a) := by
  have hπ := Real.pi_pos
  obtain ⟨hδ1, hδ2⟩ := wrap_diff_bounds hθ1 hθ2 ha1 ha2
  obtain ⟨hδk1, hδk2⟩ := wrap_diff_mul_bounds hθ1 hθ2 ha1 ha2 hk0 hk1
  obtain ⟨hb1, hb2⟩ := step_formula_bounds hθ1 hθ2 ha1 ha2 hk0 hk1
  have hδc := wrap_cases (θ - a)
  have hbc := wrap_cases (a + wrap (θ - a) * k)
  obtain ⟨hw1, hw2⟩ :=
    wrap_bounds (v := θ - wrap (a + wrap (θ - a) * k)) (by linarith) (by linarith)
  have hwc := wrap_cases (θ - wrap (a + wrap (θ - a) * k))
  have ht1 : -π < (1 - k) * wrap (θ - a) := by
    nlinarith [mul_nonneg (by linarith : (0:ℝ) ≤ 1 - k)
        (by linarith : (0:ℝ) ≤ wrap (θ - a) + π), mul_pos hπ hk0]
  have ht2 : (1 - k) * wrap (θ - a) < π := by
    nlinarith [mul_nonneg (by linarith : (0:ℝ) ≤ 1 - k)
        (by linarith : (0:ℝ) ≤ π - wrap (θ - a)), mul_pos hπ hk0]
  rcases hδc with h2 | h2 | h2 <;> rcases hbc with h1 | h1 | h1 <;>
    rcases hwc with h3 | h3 | h3 <;> linarith

/-! ### The target angle and the iterated frame step -/

/-- `Math.atan2` (i.e. `Complex.arg`) returns values in `(-π, π]`. -/
lemma targetAngle_bounds (p : Pointer) (c : GridCell ℝ) :
    -π < targetAngle p c ∧ targetAngle p c ≤ π :=
  Set.mem_Ioc.mp (Complex.arg_mem_Ioc ⟨p.x - c.x, p.y - c.y⟩)

lemma stepIter_x (k : ℝ) (p : Pointer) (c : GridCell ℝ) :
    ∀ n, (stepIter k p c n).x = c.x
  | 0 => rfl
  | n + 1 => stepIter_x k p c n

lemma stepIter_y (k : ℝ) (p : Pointer) (c : GridCell ℝ) :
    ∀ n, (stepIter k p c n).y = c.y
  | 0 => rfl
  | n + 1 => stepIter_y k p c n

/-- The frame step never moves a cell, so the target angle is unchanged
across iterations (the pointer held fixed). -/
lemma targetAngle_stepIter (k : ℝ) (p : Pointer) (c : GridCell ℝ) (n : ℕ) :
    targetAngle p (stepIter k p c n) = targetAngle p c := by
  unfold targetAngle
  rw [stepIter_x, stepIter_y]

/-- The angle stays in `[-π, π]` and the normalized angle difference decays
geometrically with ratio `1 - k`. -/
lemma stepIter_invariant (k : ℝ) (p : Pointer) (c : GridCell ℝ)
    (ha1 : -π ≤ c.currentAngle) (ha2 : c.currentAngle ≤ π)
    (hk0 : 0 < k) (hk1 : k < 1) (n : ℕ) :
    (-π ≤ (stepIter k p c n).currentAngle ∧ (stepIter k p c n).currentAngle ≤ π) ∧
      angleDiff p (stepIter k p c n) = (1 - k) ^ n * angleDiff p c := by
  induction n with
  | zero => exact ⟨⟨ha1, ha2⟩, by simp only [stepIter, pow_zero, one_mul]⟩
  | succ n ih =>
    obtain ⟨⟨h1, h2⟩, hd⟩ := ih
    obtain ⟨hθ1, hθ2⟩ := targetAngle_bounds p (stepIter k p c n)
    have hstep : (stepIter k p c (n + 1)).currentAngle =
        wrap ((stepIter k p c n).currentAngle +
          wrap (targetAngle p (stepIter k p c n) - (stepIter k p c n).currentAngle) * k) := by
      simp only [stepIter, frameStepCell, stepAngle, angleDiff]
    constructor
    · rw [hstep]
      exact step_formula_bounds hθ1 hθ2 h1 h2 hk0 hk1
    · have hdiff : angleDiff p (stepIter k p c (n + 1)) =
          wrap (targetAngle p (stepIter k p c n) - (stepIter k p c (n + 1)).currentAngle) := by
        simp only [angleDiff]
        rw [targetAngle_stepIter, targetAngle_stepIter]
      rw [hdiff, hstep, step_contract hθ1 hθ2 h1 h2 hk0 hk1]
      have : wrap (targetAngle p (stepIter k p c n) - (stepIter k p c n).currentAngle) =
          angleDiff p (stepIter k p c n) := rfl
      rw [this, hd]
      ring

/-! ### Concrete target angles -/

/-- A pointer on the unit circle at angle `θ` seen from a cell at the
origin has target angle `θ`. -/
lemma targetAngle_origin_cos_sin (θ a0 : ℝ) (h1 : -π < θ) (h2 : θ ≤ π) :
    targetAngle ⟨Real.cos θ, Real.sin θ⟩ (⟨0, 0, a0⟩ : GridCell ℝ) = θ := by
  show Complex.arg ⟨Real.cos θ - 0, Real.sin θ - 0⟩ = θ
  have hc : (⟨Real.cos θ - 0, Real.sin θ - 0⟩ : ℂ) =
      (Real.cos θ : ℂ) + (Real.sin θ : ℂ) * Complex.I := by
    simp [Complex.ext_iff, Complex.cos_ofReal_re, Complex.sin_ofReal_re]
  rw [hc, Complex.ofReal_cos, Complex.ofReal_sin]
  exact Complex.arg_cos_add_sin_mul_I ⟨h1, h2⟩

/-- A pointer directly to the right of the cell gives target angle `0`. -/
lemma targetAngle_right (a0 : ℝ) :
    targetAngle ⟨1, 0⟩ (⟨0, 0, a0⟩ : GridCell ℝ) = 0 := by
  show Complex.arg ⟨1 - 0, 0 - 0⟩ = 0
  have hc : (⟨(1:ℝ) - 0, (0:ℝ) - 0⟩ : ℂ) = 1 := by simp [Complex.ext_iff]
  rw [hc, Complex.arg_one]

/-- A pointer directly below the cell (y-down coordinates) gives target
angle `π / 2`. -/
lemma targetAngle_up (a0 : ℝ) :
    targetAngle ⟨0, 1⟩ (⟨0, 0, a0⟩ : GridCell ℝ) = π / 2 := by
  show Complex.arg ⟨0 - 0, 1 - 0⟩ = π / 2
  have hc : (⟨(0:ℝ) - 0, (1:ℝ) - 0⟩ : ℂ) = Complex.I := by simp [Complex.ext_iff]
  rw [hc, Complex.arg_I]

lemma angleDiff_up : angleDiff ⟨0, 1⟩ (⟨0, 0, 0⟩ : GridCell ℝ) = π / 2 := by
  have hπ := Real.pi_pos
  unfold angleDiff
  rw [targetAngle_up]
  have h : π / 2 - (⟨0, 0, 0⟩ : GridCell ℝ).currentAngle = π / 2 := by
    show π / 2 - 0 = π / 2; ring
  rw [h]
  exact wrap_eq_self (by linarith) (by linarith)

/-! ### Claim C1 -/

/-- C1 (amended): for a pointer and cell with `P ≠ C`, a normalized
`currentAngle` and a nonzero normalized angle difference, the target angle
is `atan2 (P.y - C.y) (P.x - C.x)` and every tick strictly decreases the
absolute normalized angle difference, while `currentAngle` never becomes
exactly the target angle in finitely many ticks (smoothing factor in
`(0,1)`). -/
theorem claim_C1_amended (k : ℝ) (p : Pointer) (c : GridCell ℝ)
    (_hPC : ¬(p.x = c.x ∧ p.y = c.y))
    (ha1 : -π ≤ c.currentAngle) (ha2 : c.currentAngle ≤ π)
    (hk0 : 0 < k) (hk1 : k < 1) (h0 : angleDiff p c ≠ 0) :
    targetAngle p c = atan2 (p.y - c.y) (p.x - c.x) ∧
    ∀ n : ℕ,
      |angleDiff p (stepIter k p c (n + 1))| < |angleDiff p (stepIter k p c n)| ∧
      (stepIter k p c n).currentAngle ≠ targetAngle p c := by
  refine ⟨rfl, fun n => ?_⟩
  obtain ⟨_, hdn⟩ := stepIter_invariant k p c ha1 ha2 hk0 hk1 n
  obtain ⟨_, hdn1⟩ := stepIter_invariant k p c ha1 ha2 hk0 hk1 (n + 1)
  have h1k : (0:ℝ) < 1 - k := by linarith
  have hne : angleDiff p (stepIter k p c n) ≠ 0 := by
    rw [hdn]
    exact mul_ne_zero (pow_ne_zero n (by linarith)) h0
  constructor
  · have hgeo : angleDiff p (stepIter k p c (n + 1)) =
        (1 - k) * angleDiff p (stepIter k p c n) := by
      rw [hdn1, hdn, pow_succ]; ring
    rw [hgeo, abs_mul, abs_of_pos h1k]
    have habs : 0 < |angleDiff p (stepIter k p c n)| := abs_pos.mpr hne
    nlinarith [mul_pos hk0 habs]
  · intro heq
    apply hne
    unfold angleDiff
    rw [targetAngle_stepIter, heq, sub_self, wrap_zero]

/-- C1 witness: pointer `(0,1)`, cell at the origin with angle `0`,
smoothing factor `1/2`. -/
theorem claim_C1_amended_witness :
    (¬((0:ℝ) = 0 ∧ (1:ℝ) = 0)) ∧ (-π ≤ (0:ℝ) ∧ (0:ℝ) ≤ π) ∧
    ((0:ℝ) < 1 / 2 ∧ (1:ℝ) / 2 < 1) ∧
    angleDiff ⟨0, 1⟩ (⟨0, 0, 0⟩ : GridCell ℝ) ≠ 0 ∧
    (targetAngle ⟨0, 1⟩ (⟨0, 0, 0⟩ : GridCell ℝ) = atan2 ((1:ℝ) - 0) ((0:ℝ) - 0) ∧
      ∀ n : ℕ,
        |angleDiff ⟨0, 1⟩ (stepIter (1 / 2) ⟨0, 1⟩ ⟨0, 0, 0⟩ (n + 1))| <
          |angleDiff ⟨0, 1⟩ (stepIter (1 / 2) ⟨0, 1⟩ ⟨0, 0, 0⟩ n)| ∧
        (stepIter (1 / 2) ⟨0, 1⟩ ⟨0, 0, 0⟩ n).currentAngle ≠
          targetAngle ⟨0, 1⟩ ⟨0, 0, 0⟩) := by
  have hπ := Real.pi_pos
  have hne : angleDiff ⟨0, 1⟩ (⟨0, 0, 0⟩ : GridCell ℝ) ≠ 0 := by
    rw [angleDiff_up]; positivity
  exact ⟨by norm_num, ⟨by linarith, by linarith⟩, ⟨by norm_num, by norm_num⟩, hne,
    claim_C1_amended (1 / 2) ⟨0, 1⟩ ⟨0, 0, 0⟩ (by norm_num)
      (by show -π ≤ (0:ℝ); linarith) (by show (0:ℝ) ≤ π; linarith)
      (by norm_num) (by norm_num) hne⟩

/-- C1 counterexample: pointer `(1,0)`, cell at the origin with angle `0`
(`P ≠ C`): the normalized angle difference is `0` already and the first
tick does not strictly decrease its absolute value. -/
theorem claim_C1_counterexample :
    ¬(|angleDiff ⟨1, 0⟩ (stepIter (1 / 2) ⟨1, 0⟩ ⟨0, 0, 0⟩ 1)| <
      |angleDiff ⟨1, 0⟩ (stepIter (1 / 2) ⟨1, 0⟩ ⟨0, 0, 0⟩ 0)|) := by
  have hd0 : angleDiff ⟨1, 0⟩ (⟨0, 0, 0⟩ : GridCell ℝ) = 0 := by
    unfold angleDiff
    rw [targetAngle_right]
    have h : (0:ℝ) - (⟨0, 0, 0⟩ : GridCell ℝ).currentAngle = 0 := by
      show (0:ℝ) - 0 = 0; ring
    rw [h, wrap_zero]
  have hca : (stepIter (1 / 2) ⟨1, 0⟩ (⟨0, 0, 0⟩ : GridCell ℝ) 1).currentAngle = 0 := by
    show wrap ((⟨0, 0, 0⟩ : GridCell ℝ).currentAngle +
      angleDiff ⟨1, 0⟩ ⟨0, 0, 0⟩ * (1 / 2)) = 0
    rw [hd0]
    have h : (⟨0, 0, 0⟩ : GridCell ℝ).currentAngle + 0 * (1 / 2) = 0 := by
      show (0:ℝ) + 0 * (1 / 2) = 0; ring
    rw [h, wrap_zero]
  have hd1 : angleDiff ⟨1, 0⟩ (stepIter (1 / 2) ⟨1, 0⟩ (⟨0, 0, 0⟩ : GridCell ℝ) 1) = 0 := by
    unfold angleDiff
    rw [targetAngle_stepIter, targetAngle_right, hca,
      (by norm_num : (0:ℝ) - 0 = 0), wrap_zero]
  have hd0' : angleDiff ⟨1, 0⟩ (stepIter (1 / 2) ⟨1, 0⟩ (⟨0, 0, 0⟩ : GridCell ℝ) 0) = 0 := hd0
  rw [hd1, hd0']
  simp

/-! ### Claims C2, C3, C10 -/

/-- The normalization of the raw delta `2π - 1`: the first branch fires
(`2π - 1 > π`), the second does not. -/
lemma wrap_two_pi_sub_one : wrap (2 * π - 1) = -1 := by
  have hπ3 := Real.pi_gt_three
  unfold wrap wrapHigh
  rw [if_pos (by linarith : 2 * π - 1 > π),
    if_neg (by linarith : ¬(2 * π - 1 - 2 * π < -π))]
  ring

/-- C2 counterexample: a cell at the origin with `currentAngle = -π + 0.05`
and the pointer in direction `π - 0.95` give a raw delta `2π - 1`, which
normalizes to `-1`; the update `-π + 0.05 + (-1) · 0.05` lands exactly on
`-π`, which the wrap leaves unchanged — outside the half-open `(-π, π]`. -/
theorem claim_C2_counterexample :
    stepAngle SMOOTHING_FACTOR ⟨Real.cos (π - 0.95), Real.sin (π - 0.95)⟩
      ⟨0, 0, -π + 0.05⟩ ∉ Set.Ioc (-π) π := by
  have hπ3 := Real.pi_gt_three
  have htgt := targetAngle_origin_cos_sin (π - 0.95) (-π + 0.05)
    (by linarith) (by linarith)
  have hdiff : angleDiff ⟨Real.cos (π - 0.95), Real.sin (π - 0.95)⟩
      (⟨0, 0, -π + 0.05⟩ : GridCell ℝ) = -1 := by
    unfold angleDiff
    rw [htgt]
    have h : π - 0.95 - (⟨0, 0, -π + 0.05⟩ : GridCell ℝ).currentAngle = 2 * π - 1 := by
      show π - 0.95 - (-π + 0.05) = 2 * π - 1
      ring
    rw [h, wrap_two_pi_sub_one]
  have hstep : stepAngle SMOOTHING_FACTOR ⟨Real.cos (π - 0.95), Real.sin (π - 0.95)⟩
      (⟨0, 0, -π + 0.05⟩ : GridCell ℝ) = -π := by
    unfold stepAngle
    rw [hdiff]
    have h : (⟨0, 0, -π + 0.05⟩ : GridCell ℝ).currentAngle +
        (-1) * SMOOTHING_FACTOR = -π := by
      show -π + 0.05 + (-1) * SMOOTHING_FACTOR = -π
      unfold SMOOTHING_FACTOR
      ring_nf
    rw [h]
    exact wrap_eq_self (le_refl _) (by linarith)
  rw [hstep]
  simp [Set.mem_Ioc]

/-- C2 (amended): every cell produced by the grid builder has
`currentAngle = 0`, and one frame step (with the source's smoothing factor)
keeps a normalized `currentAngle` inside the closed interval `[-π, π]`
(the half-open `(-π, π]` of the claim is not invariant: `-π` is reachable). -/
theorem claim_C2_amended (p : Pointer) (c : GridCell ℝ)
    (ha : c.currentAngle ∈ Set.Icc (-π) π) :
    (∀ W H : ℕ, ∀ cell ∈ setCanvasAndGrid W H, cell.currentAngle = 0) ∧
    stepAngle SMOOTHING_FACTOR p c ∈ Set.Icc (-π) π := by
  constructor
  · intro W H cell hcell
    simp only [setCanvasAndGrid, List.mem_flatMap, List.mem_map] at hcell
    obtain ⟨y, -, x, -, rfl⟩ := hcell
    rfl
  · obtain ⟨ha1, ha2⟩ := Set.mem_Icc.mp ha
    obtain ⟨hθ1, hθ2⟩ := targetAngle_bounds p c
    have h := step_formula_bounds hθ1 hθ2 ha1 ha2
      (k := SMOOTHING_FACTOR) (by norm_num [SMOOTHING_FACTOR])
      (by norm_num [SMOOTHING_FACTOR])
    exact Set.mem_Icc.mpr h

/-- C2 witness: the cell `(0, 0)` with angle `0` and pointer `(0, 1)`. -/
theorem claim_C2_amended_witness :
    (0:ℝ) ∈ Set.Icc (-π) π ∧
    ((∀ W H : ℕ, ∀ cell ∈ setCanvasAndGrid W H, cell.currentAngle = 0) ∧
      stepAngle SMOOTHING_FACTOR ⟨0, 1⟩ ⟨0, 0, 0⟩ ∈ Set.Icc (-π) π) := by
  have hπ := Real.pi_pos
  have h0 : (0:ℝ) ∈ Set.Icc (-π) π := Set.mem_Icc.mpr ⟨by linarith, by linarith⟩
  exact ⟨h0, claim_C2_amended ⟨0, 1⟩ ⟨0, 0, 0⟩ h0⟩

/-- C3: the raw delta `Δ = targetAngle - currentAngle` (target from atan2,
current normalized) is brought into `[-π, π]` by the two sequential `if`s,
shifting by a whole multiple of `2π` (the shortest-path representative);
and in the spec's scenario `currentAngle = π - 0.01`,
`targetAngle = -π + 0.01`, the raw delta `-2π + 0.02` normalizes to `0.02`. -/
theorem claim_C3 (θt a : ℝ) (hθ : θt ∈ Set.Ioc (-π) π) (ha : a ∈ Set.Icc (-π) π) :
    wrap (θt - a) ∈ Set.Icc (-π) π ∧
    (∃ m : ℤ, wrap (θt - a) = (θt - a) + 2 * π * (m : ℝ)) ∧
    wrap ((-π + 0.01) - (π - 0.01)) = 0.02 := by
  obtain ⟨hθ1, hθ2⟩ := Set.mem_Ioc.mp hθ
  obtain ⟨ha1, ha2⟩ := Set.mem_Icc.mp ha
  refine ⟨Set.mem_Icc.mpr (wrap_diff_bounds hθ1 hθ2 ha1 ha2), ?_, ?_⟩
  · rcases wrap_cases (θt - a) with h | h | h
    · exact ⟨0, by rw [h]; push_cast; ring⟩
    · exact ⟨-1, by rw [h]; push_cast; ring⟩
    · exact ⟨1, by rw [h]; push_cast; ring⟩
  · have h1 : (-π + 0.01) - (π - 0.01) = -(2 * π) + 0.02 := by ring
    have hπ3 := Real.pi_gt_three
    rw [h1]
    unfold wrap wrapHigh
    rw [if_neg (by linarith : ¬(-(2 * π) + 0.02 > π)),
      if_pos (by linarith : -(2 * π) + 0.02 < -π)]
    ring

/-- C3 witness: target angle `π / 2`, current angle `0`. -/
theorem claim_C3_witness :
    π / 2 ∈ Set.Ioc (-π) π ∧ (0:ℝ) ∈ Set.Icc (-π) π ∧
    (wrap (π / 2 - 0) ∈ Set.Icc (-π) π ∧
      (∃ m : ℤ, wrap (π / 2 - 0) = (π / 2 - 0) + 2 * π * (m : ℝ)) ∧
      wrap ((-π + 0.01) - (π - 0.01)) = 0.02) := by
  have hπ := Real.pi_pos
  have hθ : π / 2 ∈ Set.Ioc (-π) π := Set.mem_Ioc.mpr ⟨by linarith, by linarith⟩
  have ha : (0:ℝ) ∈ Set.Icc (-π) π := Set.mem_Icc.mpr ⟨by linarith, by linarith⟩
  exact ⟨hθ, ha, claim_C3 (π / 2) 0 hθ ha⟩

/-- C10: one frame step maps a `currentAngle` in the closed interval
`[-π, π]` back into `[-π, π]`: the pre-normalization value lies strictly
inside `(-2π, 2π)`, so the single-pass wrap suffices, and the boundary
value `-π` is left unchanged by the normalization. -/
theorem claim_C10 (k : ℝ) (p : Pointer) (c : GridCell ℝ)
    (ha : c.currentAngle ∈ Set.Icc (-π) π) (hk0 : 0 < k) (hk1 : k < 1) :
    stepAngle k p c ∈ Set.Icc (-π) π ∧
    c.currentAngle + angleDiff p c * k ∈ Set.Ioo (-(2 * π)) (2 * π) ∧
    wrap (-π) = -π := by
  have hπ := Real.pi_pos
  obtain ⟨ha1, ha2⟩ := Set.mem_Icc.mp ha
  obtain ⟨hθ1, hθ2⟩ := targetAngle_bounds p c
  obtain ⟨hm1, hm2⟩ := wrap_diff_mul_bounds hθ1 hθ2 ha1 ha2 hk0 hk1
  refine ⟨Set.mem_Icc.mpr (step_formula_bounds hθ1 hθ2 ha1 ha2 hk0 hk1), ?_,
    wrap_eq_self (le_refl _) (by linarith)⟩
  simp only [angleDiff]
  exact Set.mem_Ioo.mpr ⟨by linarith, by linarith⟩

/-- C10 witness: the cell `(0, 0)` with angle `0`, pointer `(0, 1)`,
smoothing factor `1/2`. -/
theorem claim_C10_witness :
    (0:ℝ) ∈ Set.Icc (-π) π ∧ ((0:ℝ) < 1 / 2 ∧ (1:ℝ) / 2 < 1) ∧
    (stepAngle (1 / 2) ⟨0, 1⟩ ⟨0, 0, 0⟩ ∈ Set.Icc (-π) π ∧
      (⟨0, 0, 0⟩ : GridCell ℝ).currentAngle +
        angleDiff ⟨0, 1⟩ ⟨0, 0, 0⟩ * (1 / 2) ∈ Set.Ioo (-(2 * π)) (2 * π) ∧
      wrap (-π) = -π) := by
  have hπ := Real.pi_pos
  have h0 : (0:ℝ) ∈ Set.Icc (-π) π := Set.mem_Icc.mpr ⟨by linarith, by linarith⟩
  exact ⟨h0, ⟨by norm_num, by norm_num⟩,
    claim_C10 (1 / 2) ⟨0, 1⟩ ⟨0, 0, 0⟩ h0 (by norm_num) (by norm_num)⟩

/-! ### Claims C4, C5, C8: the opacity computation -/

/-- The code's guarded computation agrees with the spec's piecewise
reference function everywhere. -/
lemma opacity_eq_ref (d : ℝ) : opacity d = opacityRef d := by
  unfold opacity opacityRef FADE_START_DISTANCE FADE_END_DISTANCE MIN_OPACITY MAX_OPACITY
  rcases le_or_lt d 100 with h | h
  · rw [if_neg (by linarith : ¬(d > 100)), if_pos h]
  · rw [if_pos h, if_neg (by linarith : ¬(d ≤ 100))]
    rcases le_or_lt 200 d with h2 | h2
    · rw [if_pos h2]
      have hm : min 1 ((d - 100) / (200 - 100)) = 1 := by
        rw [min_eq_left]
        rw [le_div_iff₀ (by norm_num : (0:ℝ) < 200 - 100)]
        linarith
      rw [hm]
      norm_num
    · rw [if_neg (by linarith : ¬(200 ≤ d))]
      have hm : min 1 ((d - 100) / (200 - 100)) = (d - 100) / (200 - 100) := by
        rw [min_eq_right]
        rw [div_le_one (by norm_num : (0:ℝ) < 200 - 100)]
        linarith
      rw [hm]

/-- The scenario: distance 150 gives opacity `0.505`. -/
lemma opacity_150 : opacity 150 = 0.505 := by
  unfold opacity FADE_START_DISTANCE FADE_END_DISTANCE MIN_OPACITY MAX_OPACITY
  rw [if_pos (by norm_num : (150:ℝ) > 100)]
  have hm : min 1 (((150:ℝ) - 100) / (200 - 100)) = 1 / 2 := by
    rw [min_eq_right (by norm_num)]
    norm_num
  rw [hm]
  norm_num [min_def, max_def]

/-- The clamp bounds the opacity on both sides for every real input. -/
lemma opacity_mem (d : ℝ) : MIN_OPACITY ≤ opacity d ∧ opacity d ≤ MAX_OPACITY := by
  unfold opacity
  exact ⟨le_max_left _ _,
    max_le (by norm_num [MIN_OPACITY, MAX_OPACITY]) (min_le_left _ _)⟩

/-- Opacity is a non-increasing function of distance. -/
lemma opacity_antitone {d1 d2 : ℝ} (h : d1 ≤ d2) : opacity d2 ≤ opacity d1 := by
  unfold opacity FADE_START_DISTANCE FADE_END_DISTANCE MIN_OPACITY MAX_OPACITY
  refine max_le_max le_rfl (min_le_min le_rfl ?_)
  split_ifs with h2 h1
  · have hd : (d1 - 100) / (200 - 100) ≤ (d2 - 100) / (200 - 100) := by
      apply div_le_div_of_nonneg_right (by linarith)
      norm_num
    have hmm := min_le_min (le_refl (1:ℝ)) hd
    have hprod := mul_le_mul_of_nonneg_left hmm (show (0:ℝ) ≤ 1.0 - 0.01 by norm_num)
    linarith
  · have hm0 : (0:ℝ) ≤ min 1 ((d2 - 100) / (200 - 100)) :=
      le_min (by norm_num) (div_nonneg (by linarith) (by norm_num))
    have hprod := mul_nonneg (show (0:ℝ) ≤ 1.0 - 0.01 by norm_num) hm0
    linarith
  · linarith
  · exact le_rfl

/-- C4: the per-cell opacity equals the spec's reference piecewise function
of the distance, and distance 150 yields opacity 0.505. -/
theorem claim_C4 (d : ℝ) : opacity d = opacityRef d ∧ opacity 150 = 0.505 :=
  ⟨opacity_eq_ref d, opacity_150⟩

/-- C5: the opacity function is non-increasing in the distance, and for
every real input (negative or arbitrarily large included) its value lies in
`[MIN_OPACITY, MAX_OPACITY]`. -/
theorem claim_C5 (d1 d2 : ℝ) (h : d1 < d2) :
    opacity d2 ≤ opacity d1 ∧
    ∀ d : ℝ, opacity d ∈ Set.Icc MIN_OPACITY MAX_OPACITY :=
  ⟨opacity_antitone h.le, fun d => Set.mem_Icc.mpr (opacity_mem d)⟩

/-- C5 witness: distances 50 < 150. -/
theorem claim_C5_witness :
    (50:ℝ) < 150 ∧
    (opacity 150 ≤ opacity 50 ∧
      ∀ d : ℝ, opacity d ∈ Set.Icc MIN_OPACITY MAX_OPACITY) :=
  ⟨by norm_num, claim_C5 50 150 (by norm_num)⟩

/-- C8: a pointer exactly at a cell's position needs no special case:
the target angle is `atan2 0 0 = 0`, the distance is `0`, and the opacity
is `MAX_OPACITY`. -/
theorem claim_C8 (p : Pointer) (c : GridCell ℝ) (hx : p.x = c.x) (hy : p.y = c.y) :
    targetAngle p c = 0 ∧ distanceTo p c = 0 ∧
    opacity (distanceTo p c) = MAX_OPACITY := by
  have hdx : p.x - c.x = 0 := by rw [hx]; ring
  have hdy : p.y - c.y = 0 := by rw [hy]; ring
  have hd : distanceTo p c = 0 := by
    unfold distanceTo
    rw [hdx, hdy]
    norm_num
  refine ⟨?_, hd, ?_⟩
  · unfold targetAngle atan2
    rw [hdx, hdy]
    have h0 : (⟨(0:ℝ), (0:ℝ)⟩ : ℂ) = 0 := by simp [Complex.ext_iff]
    rw [h0, Complex.arg_zero]
  · rw [hd]
    unfold opacity FADE_START_DISTANCE FADE_END_DISTANCE MIN_OPACITY MAX_OPACITY
    rw [if_neg (by norm_num : ¬((0:ℝ) > 100))]
    norm_num [min_def, max_def]

/-- C8 witness: pointer `(5, 7)` on a cell at `(5, 7)`. -/
theorem claim_C8_witness :
    ((5:ℝ) = 5 ∧ (7:ℝ) = 7) ∧
    (targetAngle ⟨5, 7⟩ ⟨5, 7, 0⟩ = 0 ∧ distanceTo ⟨5, 7⟩ ⟨5, 7, 0⟩ = 0 ∧
      opacity (distanceTo ⟨5, 7⟩ ⟨5, 7, 0⟩) = MAX_OPACITY) :=
  ⟨⟨rfl, rfl⟩, claim_C8 ⟨5, 7⟩ ⟨5, 7, 0⟩ rfl rfl⟩

/-! ### Claim C9: the frame effect -/

/-- C9: a frame mutates only `currentAngle`: every cell keeps its `x` and
`y`, the pointer target is unchanged by the frame, and the mouse handler
(the other writer in the system) leaves the cells untouched. -/
theorem claim_C9 (k : ℝ) (s : AnimState) :
    (animate k s).targetMousePos = s.targetMousePos ∧
    (animate k s).arrowGridPositions.map GridCell.x =
      s.arrowGridPositions.map GridCell.x ∧
    (animate k s).arrowGridPositions.map GridCell.y =
      s.arrowGridPositions.map GridCell.y ∧
    ∀ q : Pointer, (handleMouseMove q s).arrowGridPositions = s.arrowGridPositions := by
  refine ⟨rfl, ?_, ?_, fun q => rfl⟩
  · simp only [animate, List.map_map]
    rfl
  · simp only [animate, List.map_map]
    rfl

/-! ### Claims C6, C7: the grid builder -/

/-- The number of iterations of one axis loop. -/
lemma gridLoop_length (limit x : ℚ) :
    (gridLoop limit x).length = (⌈(limit - x) / 50⌉).toNat := by
  refine gridLoop.induct limit
    (fun x => (gridLoop limit x).length = (⌈(limit - x) / 50⌉).toNat) ?_ ?_ x
  · intro x h ih
    rw [gridLoop, dif_pos h, List.length_cons, ih]
    have h50 : (ARROW_SPACING : ℚ) = 50 := by norm_num [ARROW_SPACING]
    have hstep : (limit - (x + (ARROW_SPACING : ℚ))) / 50 = (limit - x) / 50 - 1 := by
      rw [h50]; ring
    rw [hstep, Int.ceil_sub_one]
    have hpos : 0 < ⌈(limit - x) / 50⌉ :=
      Int.ceil_pos.mpr (div_pos (by linarith) (by norm_num))
    omega
  · intro x h
    rw [gridLoop, dif_neg h, List.length_nil]
    have hle : ⌈(limit - x) / 50⌉ ≤ 0 := by
      apply Int.ceil_le.mpr
      push_cast
      rw [div_nonpos_iff]
      right
      constructor
      · linarith
      · norm_num
    omega

/-- The loop produces exactly `⌊W / S⌋` columns. -/
lemma gridXs_length (W : ℕ) : (gridXs W).length = W / 50 := by
  unfold gridXs
  rw [gridLoop_length]
  obtain ⟨q, r, hr, hW⟩ : ∃ q r : ℕ, r < 50 ∧ W = 50 * q + r :=
    ⟨W / 50, W % 50, Nat.mod_lt _ (by norm_num), (Nat.div_add_mod W 50).symm⟩
  subst hW
  have hmod : (50 * q + r) % ARROW_SPACING = r := by
    simp only [ARROW_SPACING]
    omega
  rw [hmod]
  have hdiv : (50 * q + r) / 50 = q := by omega
  rw [hdiv]
  have hval : (((50 * q + r : ℕ) : ℚ) - ((ARROW_SPACING : ℚ) / 2 + (r : ℚ) / 2)) / 50 =
      ((r : ℚ) - 50) / 100 + ((q : ℤ) : ℚ) := by
    have h50 : (ARROW_SPACING : ℚ) = 50 := by norm_num [ARROW_SPACING]
    rw [h50]
    push_cast
    ring
  rw [hval, Int.ceil_add_int]
  have h1 : ((r : ℚ) - 50) / 100 ≤ 0 := by
    rw [div_nonpos_iff]
    right
    constructor
    · have : (r : ℚ) < 50 := by exact_mod_cast hr
      linarith
    · norm_num
  have h2 : (-1 : ℚ) < ((r : ℚ) - 50) / 100 := by
    rw [lt_div_iff₀ (by norm_num : (0:ℚ) < 100)]
    have : (0:ℚ) ≤ r := Nat.cast_nonneg r
    linarith
  have hle0 : ⌈((r : ℚ) - 50) / 100⌉ ≤ 0 := Int.ceil_le.mpr (by push_cast; exact h1)
  have hgt : (-1 : ℤ) < ⌈((r : ℚ) - 50) / 100⌉ := Int.lt_ceil.mpr (by push_cast; exact h2)
  have hceil : ⌈((r : ℚ) - 50) / 100⌉ = 0 := by omega
  rw [hceil]
  simp

/-- The loop produces exactly `⌊H / S⌋` rows. -/
lemma gridYs_length (H : ℕ) : (gridYs H).length = H / 50 := gridXs_length H

lemma setCanvasAndGrid_length (W H : ℕ) :
    (setCanvasAndGrid W H).length = (H / 50) * (W / 50) := by
  unfold setCanvasAndGrid
  rw [List.length_flatMap]
  simp only [Function.comp_def]
  have hmap : (gridYs H).map
        (fun y => ((gridXs W).map fun x => (⟨x, y, 0⟩ : GridCell ℚ)).length) =
      (gridYs H).map (fun _ => W / 50) := by
    apply List.map_congr_left
    intro y _
    rw [List.length_map, gridXs_length]
  rw [hmap, List.map_const', List.sum_replicate, smul_eq_mul, gridYs_length]

lemma gridLoop_cons {limit x : ℚ} (h : x < limit) :
    gridLoop limit x = x :: gridLoop limit (x + 50) := by
  rw [gridLoop, dif_pos h]
  norm_num [ARROW_SPACING]

lemma gridLoop_nil {limit x : ℚ} (h : ¬(x < limit)) : gridLoop limit x = [] := by
  rw [gridLoop, dif_neg h]

/-- The ten column positions of a 500-pixel-wide viewport. -/
lemma gridXs_500 : gridXs 500 = [25, 75, 125, 175, 225, 275, 325, 375, 425, 475] := by
  have hstart : (ARROW_SPACING : ℚ) / 2 + ((500 % ARROW_SPACING : ℕ) : ℚ) / 2 = 25 := by
    norm_num [ARROW_SPACING]
  unfold gridXs
  rw [hstart]
  rw [gridLoop_cons (by norm_num), gridLoop_cons (by norm_num),
    gridLoop_cons (by norm_num), gridLoop_cons (by norm_num),
    gridLoop_cons (by norm_num), gridLoop_cons (by norm_num),
    gridLoop_cons (by norm_num), gridLoop_cons (by norm_num),
    gridLoop_cons (by norm_num), gridLoop_cons (by norm_num),
    gridLoop_nil (by norm_num)]
  norm_num

/-- The ten row positions of a 500-pixel-high viewport. -/
lemma gridYs_500 : gridYs 500 = [25, 75, 125, 175, 225, 275, 325, 375, 425, 475] :=
  gridXs_500

/-- C6: a 500×500 viewport with spacing 50 yields a 10×10 grid of 100
cells, first cell at `(25, 25)`, positions stepping by 50 on each axis; in
general the builder produces `⌊W/S⌋` columns and `⌊H/S⌋` rows and
initializes every produced cell's `currentAngle` to 0. -/
theorem claim_C6 (W H : ℕ) :
    (gridXs W).length = W / 50 ∧ (gridYs H).length = H / 50 ∧
    (setCanvasAndGrid W H).length = (H / 50) * (W / 50) ∧
    (∀ cell ∈ setCanvasAndGrid W H, cell.currentAngle = 0) ∧
    (setCanvasAndGrid 500 500).length = 100 ∧
    gridXs 500 = [25, 75, 125, 175, 225, 275, 325, 375, 425, 475] ∧
    gridYs 500 = [25, 75, 125, 175, 225, 275, 325, 375, 425, 475] ∧
    (setCanvasAndGrid 500 500).head? = some ⟨25, 25, 0⟩ := by
  refine ⟨gridXs_length W, gridYs_length H, setCanvasAndGrid_length W H, ?_, ?_, gridXs_500,
    gridYs_500, ?_⟩
  · intro cell hcell
    simp only [setCanvasAndGrid, List.mem_flatMap, List.mem_map] at hcell
    obtain ⟨y, -, x, -, rfl⟩ := hcell
    rfl
  · rw [setCanvasAndGrid_length]
  · unfold setCanvasAndGrid
    rw [gridYs_500, gridXs_500]
    rfl

/-- C6 witness: the 500×500 viewport instance. -/
theorem claim_C6_witness :
    (gridXs 500).length = 500 / 50 ∧ (gridYs 500).length = 500 / 50 ∧
    (setCanvasAndGrid 500 500).length = (500 / 50) * (500 / 50) ∧
    (∀ cell ∈ setCanvasAndGrid 500 500, cell.currentAngle = 0) ∧
    (setCanvasAndGrid 500 500).length = 100 ∧
    gridXs 500 = [25, 75, 125, 175, 225, 275, 325, 375, 425, 475] ∧
    gridYs 500 = [25, 75, 125, 175, 225, 275, 325, 375, 425, 475] ∧
    (setCanvasAndGrid 500 500).head? = some ⟨25, 25, 0⟩ :=
  claim_C6 500 500

/-- C7: a degenerate viewport (zero or smaller than the spacing in either
dimension) yields the empty cell sequence — a valid result, not an error. -/
theorem claim_C7 (W H : ℕ) (h : W = 0 ∨ W < 50 ∨ H = 0 ∨ H < 50) :
    setCanvasAndGrid W H = [] := by
  apply List.length_eq_zero.mp
  rw [setCanvasAndGrid_length]
  have h0 : W / 50 = 0 ∨ H / 50 = 0 := by
    rcases h with h | h | h | h
    · left; exact Nat.div_eq_of_lt (by omega)
    · left; exact Nat.div_eq_of_lt h
    · right; exact Nat.div_eq_of_lt (by omega)
    · right; exact Nat.div_eq_of_lt h
  rcases h0 with h0 | h0 <;> rw [h0] <;> simp

/-- C7 witness: a 30×500 viewport yields no cells. -/
theorem claim_C7_witness :
    ((30:ℕ) = 0 ∨ (30:ℕ) < 50 ∨ (500:ℕ) = 0 ∨ (500:ℕ) < 50) ∧
    setCanvasAndGrid 30 500 = [] :=
  ⟨by norm_num, claim_C7 30 500 (by norm_num)⟩

end CanvasRoot
